import Mathlib

/-!
Verification of the computational core of the report_creator repository:
the hierarchical digest-tree builder (src/core/digest_layer.py) and the
hierarchical retrieval index (src/core/retrieval_index.py), with the string
formatting helpers of src/utils/utils.py and the constants of
src/utils/config.py.

Modelling conventions.  The external collaborators — the chat-completion
summarizer/classifier (utils.chat_completion), the pylate ColBERT encoder,
the torch tensor library and the Neo4j driver — are modelled as oracles:
deterministic functions supplied as parameters, returning `Except` wherever
the underlying call can raise a Python exception.  Python machine floats
(similarity scores, boosts) are modelled as exact rationals; `k` and list
indices are naturals (counts); Python strings are Lean strings, and the few
string primitives the code uses (strip/upper/lower/split/replace on a
one-character pattern/slicing/substring membership) are implemented on the
underlying character list so that they compute inside the kernel.
-/

namespace ReportCreator

/-- Python `str.strip()`: drop whitespace from both ends of the character list. -/
def pyStripChars (l : List Char) : List Char :=
  ((l.dropWhile Char.isWhitespace).reverse.dropWhile Char.isWhitespace).reverse

/-- Python `response.strip().upper()` as used by `classify_query_level`. -/
def pyStripUpper (s : String) : String :=
  String.mk ((pyStripChars s.data).map Char.toUpper)

/-- Python `str.lower()` (ASCII-exact, which is all the repository feeds it). -/
def pyLower (s : String) : String :=
  String.mk (s.data.map Char.toLower)

/-- Python `s[:n]` (slice of the first `n` code points). -/
def pySlice (s : String) (n : Nat) : String :=
  String.mk (s.data.take n)

/-- Python `range(start, stop, step)` for a positive step. -/
def pyRange (start stop step : Nat) : List Nat :=
  if h : 0 < step ∧ start < stop then
    start :: pyRange (start + step) stop step
  else []
termination_by stop - start
decreasing_by omega

/-- `LEAF_SIZE` from src/utils/config.py. -/
def LEAF_SIZE : Nat := 10

/-- `BRANCH_SIZE` from src/utils/config.py. -/
def BRANCH_SIZE : Nat := 10

/-- Oracle bundling the four distinct chat-completion uses of
`DigestLayer` (src/core/digest_layer.py).  Each field maps the inputs whose
rendered prompt feeds `chat_completion` to the text the model returns:
`simple_leaf_abstract` models `DigestLayer.simple_leaf_abstract` (lines
199-225, LEAF_TEMPLATE over the chunk), `slisum_consensus` the consensus
call of `_slisum_leaf_abstract` (lines 179-197), `branch_summary` one
iteration of `_create_branch_summaries` (lines 248-263), and `root_digest`
`_create_root_digest` (lines 267-292). -/
structure DigestOracle (F : Type) where
  simple_leaf_abstract : List F → String
  slisum_consensus : List String → String
  branch_summary : List String → String
  root_digest : List String → String

/-- `DigestTree` dataclass (src/core/digest_layer.py lines 33-41).  The two
Python dicts have consecutive integer keys `0..len-1` inserted in order, so
they are modelled as association lists in insertion order. -/
structure DigestTree (F : Type) where
  facts : List F
  leafs : List String
  branches : List String
  root : String
  leaf_fact_mapping : List (Nat × List Nat)
  branch_leaf_mapping : List (Nat × List Nat)

/-- Window start offsets generated by `_slisum_leaf_abstract` for a chunk of
`n` facts: `range(0, len(facts) - window_size + 1, overlap)` with
`window_size = min(7, n)` and `overlap = window_size // 2` (lines 166-170). -/
def slisum_windows (n : Nat) : List Nat :=
  pyRange 0 (n - min 7 n + 1) (min 7 n / 2)

variable {F : Type}

/-- `DigestLayer._slisum_leaf_abstract` (src/core/digest_layer.py lines
153-197): below 5 facts fall back to the simple abstract; otherwise each
sliding window (`facts[start:start+window_size]`) is summarized
independently, and a single window is returned directly while several
windows go through the consensus chat call. -/
def slisum_leaf_abstract (O : DigestOracle F) (facts : List F) : String :=
  if facts.length < 5 then O.simple_leaf_abstract facts
  else
    let window_size := min 7 facts.length
    let window_abstracts := (slisum_windows facts.length).map
      (fun start => O.simple_leaf_abstract ((facts.drop start).take window_size))
    if window_abstracts.length ≤ 1 then
      match window_abstracts with
      | [] => O.simple_leaf_abstract facts
      | a :: _ => a
    else O.slisum_consensus window_abstracts

/-- The per-chunk dispatch inside `_create_leaf_abstracts` (lines 143-146):
chunks of at least 3 facts go through SliSum, smaller ones directly to
`simple_leaf_abstract`. -/
def leaf_chunk_abstract (O : DigestOracle F) (leaf_facts : List F) : String :=
  if 3 ≤ leaf_facts.length then slisum_leaf_abstract O leaf_facts
  else O.simple_leaf_abstract leaf_facts

/-- Common shape of the chunking loops of `_create_leaf_abstracts` (lines
136-149) and `_create_branch_summaries` (lines 241-263): iterate `i` over
`range(0, len(l), size)`, emit `g` of the chunk `l[i:i+size]`, and record
`(len(outs), list(range(i, min(i + size, len(l)))))` in the mapping. -/
def chunkLoop {α : Type} (g : List α → String) (size : Nat) (l : List α) (i : Nat)
    (outs : List String) (mapping : List (Nat × List Nat)) :
    List String × List (Nat × List Nat) :=
  if h : 0 < size ∧ i < l.length then
    chunkLoop g size l (i + size) (outs ++ [g ((l.drop i).take size)])
      (mapping ++ [(outs.length, List.range' i (min (i + size) l.length - i))])
  else (outs, mapping)
termination_by l.length - i
decreasing_by omega

/-- `DigestLayer._create_leaf_abstracts` (lines 122-151): returns the leaf
abstracts and the leaf-to-fact-indices mapping. -/
def create_leaf_abstracts (O : DigestOracle F) (facts : List F) :
    List String × List (Nat × List Nat) :=
  chunkLoop (leaf_chunk_abstract O) LEAF_SIZE facts 0 [] []

/-- `DigestLayer._create_branch_summaries` (lines 227-265): returns the
branch summaries and the branch-to-leaf-indices mapping. -/
def create_branch_summaries (O : DigestOracle F) (abstracts : List String) :
    List String × List (Nat × List Nat) :=
  chunkLoop O.branch_summary BRANCH_SIZE abstracts 0 [] []

/-- `DigestLayer.digest_facts` (src/core/digest_layer.py lines 54-120). -/
def digest_facts (O : DigestOracle F) (facts : List F) : DigestTree F :=
  if facts.isEmpty then
    { facts := [], leafs := [], branches := [],
      root := "No facts available for digestion.",
      leaf_fact_mapping := [], branch_leaf_mapping := [] }
  else
    let lp := create_leaf_abstracts O facts
    if lp.1.length ≤ 1 then
      { facts := facts, leafs := lp.1, branches := [],
        root := match lp.1 with
          | [] => "Insufficient facts for hierarchical processing."
          | a :: _ => a,
        leaf_fact_mapping := lp.2, branch_leaf_mapping := [] }
    else
      let bp := create_branch_summaries O lp.1
      if bp.1.length ≤ 1 then
        { facts := facts, leafs := lp.1, branches := bp.1,
          root := match bp.1 with
            | [] => lp.1.headI
            | b :: _ => b,
          leaf_fact_mapping := lp.2, branch_leaf_mapping := bp.2 }
      else
        { facts := facts, leafs := lp.1, branches := bp.1,
          root := O.root_digest bp.1,
          leaf_fact_mapping := lp.2, branch_leaf_mapping := bp.2 }

/-- Total number of occurrences of index `j` across all index lists of a
leaf/branch mapping; `j` appears in exactly one entry of the mapping iff
this count is 1 (the index lists of the tree never repeat an index). -/
def mappingCount (m : List (Nat × List Nat)) (j : Nat) : Nat :=
  ((m.map Prod.snd).flatten).count j

/-- Query classification levels (`QueryLevel` enum, src/core/digest_layer.py
lines 25-30). -/
inductive QueryLevel where
  | strategic
  | pattern
  | specific
  | mixed
deriving DecidableEq

/-- A multi-vector (token-level) embedding: one rational vector per token.
Models the torch tensors produced by the pylate ColBERT encoder, with the
machine floats replaced by exact rationals. -/
abbrev Emb := List (List ℚ)

/-- Dot product of two token vectors (one cell of the torch matmul in
`_safe_colbert_similarity`). -/
def dotProduct (u v : List ℚ) : ℚ :=
  (List.zipWith (fun a b => a * b) u v).sum

/-- The `try` body of `RetrievalIndex._safe_colbert_similarity`
(src/core/retrieval_index.py lines 403-421): build the `query × document`
similarity matrix, take the maximum of each row, and sum.  It raises (is
`Except.error`) exactly when torch would: the matmul's inner dimensions
disagree, or the reduction dimension of `torch.max(..., dim=-1)` is empty
because the document has no token vectors. -/
def colbertSimilarityBody (query_embedding doc_embedding : Emb) : Except String ℚ :=
  if doc_embedding.isEmpty then
    .error "max(): reduction over an empty dimension"
  else if query_embedding.all (fun u => doc_embedding.all (fun v => u.length = v.length)) then
    let similarity_matrix := query_embedding.map
      (fun u => doc_embedding.map (fun v => dotProduct u v))
    let max_sim_per_query_token := similarity_matrix.map (fun row => (row.max?).getD 0)
    .ok max_sim_per_query_token.sum
  else
    .error "matmul: shape mismatch"

/-- `RetrievalIndex._safe_colbert_similarity` (src/core/retrieval_index.py
lines 400-440).  The cosine fallback (`torch.nn.functional.cosine_similarity`
of the two flattened vectors, lines 425-438) is an external torch call whose
value is irrational in general; it is modelled as the oracle `cosine`,
applied to the flattened vectors, returning `Except.error` where torch would
raise (e.g. flattened sizes disagree). -/
def safe_colbert_similarity (cosine : List ℚ → List ℚ → Except String ℚ)
    (query_embedding doc_embedding : Emb) : ℚ :=
  match colbertSimilarityBody query_embedding doc_embedding with
  | .ok s => s
  | .error _ =>
    match cosine query_embedding.flatten doc_embedding.flatten with
    | .ok c => c
    | .error _ => 0

/-- A Python dict with string keys and values (the documents of
`RetrievalIndex` are built as `{"id": ..., "text": ...}` dicts). -/
abbrev PyDict := List (String × String)

/-- Python `d.get(key)` / `d[key]` lookup on a dict. -/
def dictGet? (d : PyDict) (key : String) : Option String :=
  (d.find? (fun p => p.1 = key)).map (fun p => p.2)

/-- Python `doc_id.split("_")[0]`: the prefix of the id before the first
underscore (the level tag of the document). -/
def docLevel (docId : String) : String :=
  String.mk (docId.data.takeWhile (fun c => c ≠ '_'))

/-- The in-memory part of `RetrievalIndex` that `retrieve` reads:
`self.documents`, `self.document_embeddings` and `self.doc_id_to_neo4j_id`. -/
structure RetrievalState where
  documents : List PyDict
  document_embeddings : List Emb
  doc_id_to_neo4j_id : List (String × String)

/-- The graph context row returned by `.single()` for one document in
`_hierarchical_enhance_results` (src/core/retrieval_index.py lines
456-469). -/
structure GraphContext where
  level : String
  parent_context : Option String
  child_contexts : List String
  entities : List String
  related_entities : List String

/-- Oracle for the external calls made during one `retrieve` invocation:
the chat completion behind `classify_query_level` (its raw text response,
or the exception it raises), `model.encode([query], is_query=True)` followed
by `[0]`, the torch cosine-similarity fallback, and the Neo4j
context query `session.run(...).single()` keyed by the node's neo4j id
(`Except.error` when the driver/session raises, `Option` for the row). -/
structure RetrieveEnv where
  classifyResp : Except String String
  encodeQuery : Except String Emb
  cosine : List ℚ → List ℚ → Except String ℚ
  runContext : String → Except String (Option GraphContext)

/-- One entry of the `scores` list built by `_colbert_retrieve_by_levels` /
`_colbert_retrieve` (dict with keys doc_index, score, doc_id, text, level). -/
structure ScoreEntry where
  doc_index : Nat
  score : ℚ
  doc_id : String
  text : String
  level : String

/-- The scoring loop of `_colbert_retrieve_by_levels` (src/core/
retrieval_index.py lines 357-371): walk `enumerate(self.document_embeddings)`,
skip documents whose level is not in `levels`, and score the rest.  Missing
`documents[i]` or a missing dict key raises, which propagates out of the
loop. -/
def scoreDocsByLevels (st : RetrievalState) (env : RetrieveEnv) (qe : Emb)
    (levels : List String) : List (Nat × Emb) → List ScoreEntry →
    Except String (List ScoreEntry)
  | [], acc => .ok acc
  | (i, doc_emb) :: rest, acc =>
    match st.documents[i]? with
    | none => .error "IndexError: documents"
    | some doc =>
      match dictGet? doc "id" with
      | none => .error "KeyError: id"
      | some docId =>
        if docLevel docId ∈ levels then
          match dictGet? doc "text" with
          | none => .error "KeyError: text"
          | some text =>
            scoreDocsByLevels st env qe levels rest
              (acc ++ [⟨i, safe_colbert_similarity env.cosine qe doc_emb,
                        docId, text, docLevel docId⟩])
        else scoreDocsByLevels st env qe levels rest acc

/-- The scoring loop of `_colbert_retrieve` (lines 384-395): identical but
with no level filter. -/
def scoreDocsAll (st : RetrievalState) (env : RetrieveEnv) (qe : Emb) :
    List (Nat × Emb) → List ScoreEntry → Except String (List ScoreEntry)
  | [], acc => .ok acc
  | (i, doc_emb) :: rest, acc =>
    match st.documents[i]? with
    | none => .error "IndexError: documents"
    | some doc =>
      match dictGet? doc "id" with
      | none => .error "KeyError: id"
      | some docId =>
        match dictGet? doc "text" with
        | none => .error "KeyError: text"
        | some text =>
          scoreDocsAll st env qe rest
            (acc ++ [⟨i, safe_colbert_similarity env.cosine qe doc_emb,
                      docId, text, docLevel docId⟩])

/-- Python `scores.sort(key=lambda x: x["score"], reverse=True)`: a stable
descending sort by score. -/
def sortByScoreDesc (scores : List ScoreEntry) : List ScoreEntry :=
  scores.mergeSort (fun a b => decide (b.score ≤ a.score))

/-- `RetrievalIndex._colbert_retrieve_by_levels` (src/core/retrieval_index.py
lines 349-374). -/
def colbert_retrieve_by_levels (st : RetrievalState) (env : RetrieveEnv)
    (levels : List String) (k : Nat) : Except String (List ScoreEntry) :=
  if st.document_embeddings.isEmpty || st.documents.isEmpty then .ok []
  else
    match env.encodeQuery with
    | .error e => .error e
    | .ok qe =>
      match scoreDocsByLevels st env qe levels st.document_embeddings.enum [] with
      | .error e => .error e
      | .ok scores => .ok ((sortByScoreDesc scores).take k)

/-- `RetrievalIndex._colbert_retrieve` (lines 376-398). -/
def colbert_retrieve (st : RetrievalState) (env : RetrieveEnv) (k : Nat) :
    Except String (List ScoreEntry) :=
  if st.document_embeddings.isEmpty || st.documents.isEmpty then .ok []
  else
    match env.encodeQuery with
    | .error e => .error e
    | .ok qe =>
      match scoreDocsAll st env qe st.document_embeddings.enum [] with
      | .error e => .error e
      | .ok scores => .ok ((sortByScoreDesc scores).take k)

/-- Python `query.lower().split()`: lower-case, split on whitespace runs,
discard empty pieces.  The result stands in for the `query_terms` set of
line 482 (only membership tests are performed on it, so duplicates are
irrelevant). -/
def queryTerms (query : String) : List (List Char) :=
  ((query.data.map Char.toLower).splitOnP Char.isWhitespace).filter
    (fun w => ¬ w.isEmpty)

/-- Python `term in entity` substring test on character lists. -/
def charsInfix (term s : List Char) : Bool :=
  (List.range (s.length + 1)).any (fun i => term.isPrefixOf (s.drop i))

/-- One mentioned entity matches the query iff some query term is a
substring of the lower-cased entity name (line 485). -/
def entityMatchesQuery (query : String) (entity : String) : Bool :=
  (queryTerms query).any (fun term => charsInfix term (entity.data.map Char.toLower))

/-- The entity boost of lines 482-485:
`sum(0.1 for entity in entities if any(term in entity.lower() for term in query_terms))`. -/
def entityBoost (query : String) (entities : List String) : ℚ :=
  ((entities.filter (fun e => entityMatchesQuery query e)).length : ℚ) * (1 / 10)

/-- The level boost dict lookup with default 1.0 (lines 475-480). -/
def levelBoost (level : String) : ℚ :=
  (([("root", (13 : ℚ) / 10), ("branch", 12 / 10), ("leaf", 11 / 10),
     ("fact", 1)] : List (String × ℚ)).lookup level).getD 1

/-- One enhanced result (dict appended at lines 493-507); only the fields
that survive to the final ranking and output are kept. -/
structure EnhancedEntry where
  text : String
  score : ℚ
  level : String
  entities : List String

/-- Processing of one ColBERT candidate inside the enhancement loop
(src/core/retrieval_index.py lines 451-507): look up the neo4j id, fetch
the graph context, boost the score and prepend parent context; a candidate
whose context row is `None` is silently dropped (`.ok none`), and one with
no neo4j id keeps its raw score. -/
def enhanceOne (st : RetrievalState) (env : RetrieveEnv) (query : String)
    (result : ScoreEntry) : Except String (Option EnhancedEntry) :=
  match dictGet? st.doc_id_to_neo4j_id result.doc_id with
  | some neo4jId =>
    match env.runContext neo4jId with
    | .error e => .error e
    | .ok (some context) =>
      let final_score := result.score * levelBoost context.level +
        entityBoost query context.entities
      let enhanced_text :=
        match context.parent_context with
        | some p =>
          if p ≠ "" ∧ (context.level = "leaf" ∨ context.level = "fact") then
            "CONTEXT: " ++ pySlice p 200 ++ "...\n\n" ++ result.text
          else result.text
        | none => result.text
      .ok (some ⟨enhanced_text, final_score, context.level, context.entities⟩)
    | .ok none => .ok none
  | none => .ok (some ⟨result.text, result.score, result.level, []⟩)

/-- The enhancement loop over all ColBERT candidates, in order; the first
raised exception aborts the whole loop. -/
def enhanceLoop (st : RetrievalState) (env : RetrieveEnv) (query : String) :
    List ScoreEntry → Except String (List EnhancedEntry)
  | [] => .ok []
  | result :: rest =>
    match enhanceOne st env query result with
    | .error e => .error e
    | .ok r =>
      match enhanceLoop st env query rest with
      | .error e => .error e
      | .ok l =>
        match r with
        | some x => .ok (x :: l)
        | none => .ok l

/-- Python `enhanced_results.sort(key=lambda x: x["score"], reverse=True)`. -/
def sortEnhancedDesc (l : List EnhancedEntry) : List EnhancedEntry :=
  l.mergeSort (fun a b => decide (b.score ≤ a.score))

/-- `RetrievalIndex._hierarchical_enhance_results` (src/core/
retrieval_index.py lines 442-515).  Its own `try/except` means it never
raises: any failure inside the session block falls back to the raw ColBERT
texts truncated to `k`. -/
def hierarchical_enhance_results (st : RetrievalState) (env : RetrieveEnv)
    (query : String) (colbert_results : List ScoreEntry) (k : Nat) : List String :=
  if colbert_results.isEmpty then []
  else
    match enhanceLoop st env query colbert_results with
    | .ok enhanced_results =>
      ((sortEnhancedDesc enhanced_results).take k).map (fun r => r.text)
    | .error _ => (colbert_results.take k).map (fun r => r.text)

/-- `RetrievalIndex._query_levels` (lines 337-341). -/
def query_levels (st : RetrievalState) (env : RetrieveEnv) (query : String)
    (levels : List String) (k : Nat) : Except String (List String) :=
  match colbert_retrieve_by_levels st env levels (k * 2) with
  | .error e => .error e
  | .ok colbert_results =>
    .ok (hierarchical_enhance_results st env query colbert_results k)

/-- `RetrievalIndex._query_all_levels` (lines 343-347). -/
def query_all_levels (st : RetrievalState) (env : RetrieveEnv) (query : String)
    (k : Nat) : Except String (List String) :=
  match colbert_retrieve st env (k * 3) with
  | .error e => .error e
  | .ok colbert_results =>
    .ok (hierarchical_enhance_results st env query colbert_results k)

/-- The coercion of the classifier's raw text response performed by
`RetrievalIndex.classify_query_level` (src/core/retrieval_index.py lines
325-335): strip, upper-case, and map anything but the three known labels to
MIXED. -/
def classify_query_level (response : String) : QueryLevel :=
  if pyStripUpper response = "STRATEGIC" then .strategic
  else if pyStripUpper response = "PATTERN" then .pattern
  else if pyStripUpper response = "SPECIFIC" then .specific
  else .mixed

/-- The `try` body of `RetrievalIndex.retrieve` (lines 270-286): classify,
then dispatch to the level sets. -/
def retrieveMain (st : RetrievalState) (env : RetrieveEnv) (query : String)
    (k : Nat) : Except String (List String) :=
  match env.classifyResp with
  | .error e => .error e
  | .ok response =>
    match classify_query_level response with
    | .strategic => query_levels st env query ["root", "branch"] k
    | .pattern => query_levels st env query ["branch", "leaf"] k
    | .specific => query_levels st env query ["leaf", "fact"] k
    | .mixed => query_all_levels st env query k

/-- The fallback comprehension `[doc["text"] for doc in self.documents[:k]]`
(line 294); a document missing its "text" key raises. -/
def retrieveFallback (st : RetrievalState) (k : Nat) : Except String (List String) :=
  go (st.documents.take k)
where
  go : List PyDict → Except String (List String)
    | [] => .ok []
    | d :: rest =>
      match dictGet? d "text" with
      | none => .error "KeyError: text"
      | some t =>
        match go rest with
        | .error e => .error e
        | .ok l => .ok (t :: l)

/-- `RetrievalIndex.retrieve` (src/core/retrieval_index.py lines 255-301):
the full try/except/except chain. -/
def retrieve (st : RetrievalState) (env : RetrieveEnv) (query : String)
    (k : Nat) : List String :=
  match retrieveMain st env query k with
  | .ok results => results
  | .error _ =>
    match retrieveFallback st k with
    | .ok fallback_docs => fallback_docs
    | .error _ => []

/-- A fact record (spec §3: `{who, what, when, where}` strings, always
present).  `when`/`where` are Lean keywords, hence the `Str` suffix. -/
structure Fact where
  who : String
  what : String
  whenStr : String
  whereStr : String

/-- Python `f"{entity_type}_{entity_name}".replace(" ", "_").lower()` (line
191).  `str.replace` on the one-character pattern `" "` is the character
map sending `' '` to `'_'`. -/
def entityId (entity_type entity_name : String) : String :=
  String.mk (((entity_type ++ "_" ++ entity_name).data.map
    (fun c => if c = ' ' then '_' else c)).map Char.toLower)

/-- The `(type, name)` pairs collected from a fact at lines 183-187:
only `who` (as Person) and `where` (as Location), each skipped when its
lower-cased value is "unknown". -/
def factEntities (fact : Fact) : List (String × String) :=
  (if pyLower fact.who ≠ "unknown" then [("Person", fact.who)] else []) ++
  (if pyLower fact.whereStr ≠ "unknown" then [("Location", fact.whereStr)] else [])

/-- An `Entity` node as persisted in Neo4j. -/
structure EntityNode where
  id : String
  name : String
  type : String
  mention_count : Nat

/-- An undirected `CO_OCCURS` relationship between two entity ids. -/
structure CoOccursEdge where
  e1 : String
  e2 : String
  co_occurrence_count : Nat

/-- The slice of the Neo4j graph that
`_create_entities_and_relationships` writes. -/
structure GraphState where
  entities : List EntityNode
  mentions : List (String × String)
  cooccurs : List CoOccursEdge

/-- Effect on the entity-node list of the
`MERGE (e:Entity {id: ...}) ON CREATE ... ON MATCH ...` statement of lines
193-205: create with `mention_count = 1`, or increment the count of the
existing node with that id. -/
def entMerge (es : List EntityNode) (id name type : String) : List EntityNode :=
  if es.any (fun e => e.id = id) then
    es.map (fun e =>
      if e.id = id then { e with mention_count := e.mention_count + 1 } else e)
  else
    es ++ [⟨id, name, type, 1⟩]

/-- The entity `MERGE` statement as a graph-state transformation (it touches
only the entity nodes). -/
def mergeEntity (g : GraphState) (id name type : String) : GraphState :=
  { g with entities := entMerge g.entities id name type }

/-- The `MERGE (d)-[:MENTIONS]->(e)` statement of lines 207-212: at most one
edge per (document, entity) pair. -/
def mergeMention (g : GraphState) (docId entId : String) : GraphState :=
  if (docId, entId) ∈ g.mentions then g
  else { g with mentions := g.mentions ++ [(docId, entId)] }

/-- Whether an undirected CO_OCCURS edge connects ids `a` and `b`. -/
def coConnects (c : CoOccursEdge) (a b : String) : Bool :=
  (c.e1 = a ∧ c.e2 = b) ∨ (c.e1 = b ∧ c.e2 = a)

/-- Effect on the CO_OCCURS edge list of the undirected
`MERGE (e1)-[r:CO_OCCURS]-(e2) ON CREATE ... ON MATCH ...` statement of
lines 219-227: match the edge in either direction, create it with count 1,
or increment the count of the matched edge. -/
def coMerge (cs : List CoOccursEdge) (a b : String) : List CoOccursEdge :=
  if cs.any (fun c => coConnects c a b) then
    cs.map (fun c =>
      if coConnects c a b then
        { c with co_occurrence_count := c.co_occurrence_count + 1 }
      else c)
  else
    cs ++ [⟨a, b, 1⟩]

/-- The CO_OCCURS `MERGE` statement as a graph-state transformation (it
touches only the co-occurrence edges). -/
def mergeCoOccurs (g : GraphState) (a b : String) : GraphState :=
  { g with cooccurs := coMerge g.cooccurs a b }

/-- The nested `for i / for j in range(i+1, ...)` pair enumeration of lines
217-218. -/
def orderedPairs {α : Type} : List α → List (α × α)
  | [] => []
  | x :: xs => xs.map (fun y => (x, y)) ++ orderedPairs xs

/-- `RetrievalIndex._create_entities_and_relationships`
(src/core/retrieval_index.py lines 180-227), as the state transformation it
performs on the entity/relationship part of the graph. -/
def create_entities_and_relationships (fact : Fact) (docNeo4jId : String)
    (g : GraphState) : GraphState :=
  let step := (factEntities fact).foldl
    (fun (p : GraphState × List String) et =>
      let entity_id := entityId et.1 et.2
      (mergeMention (mergeEntity p.1 entity_id et.2 et.1) docNeo4jId entity_id,
       p.2 ++ [entity_id]))
    (g, [])
  if 2 ≤ step.2.length then
    (orderedPairs step.2).foldl (fun gg pr => mergeCoOccurs gg pr.1 pr.2) step.1
  else step.1

/-- A fixed summarizer oracle over `Nat` facts, used to evaluate the tree
builder on concrete inputs. -/
def trivDigestOracle : DigestOracle Nat :=
  ⟨fun _ => "leafT", fun _ => "consT", fun _ => "branchT", fun _ => "rootT"⟩

/-- An environment in which every external call raises, used to evaluate
the failure paths of `retrieve` on concrete inputs. -/
def envFail : RetrieveEnv :=
  ⟨.error "api down", .error "api down", fun _ _ => .error "api down",
   fun _ => .error "api down"⟩

/-- An environment whose classifier call returns `resp` but whose other
external calls raise, used to evaluate the routing of `retrieve` on
concrete inputs. -/
def envResp (resp : String) : RetrieveEnv :=
  ⟨.ok resp, .error "encode down", fun _ _ => .error "cos down",
   fun _ => .error "neo4j down"⟩

/-- A fixed graph-context row (fact level, non-empty parent text, one
mentioned entity), used to evaluate enhancement on concrete inputs. -/
def ctxOne : GraphContext :=
  ⟨"fact", some "parent abstract text", [], ["alice"], []⟩

/-- A one-document retrieval state (a single fact node with a
2-dimensional token vector), used for concrete evaluations. -/
def stOneDoc : RetrievalState :=
  ⟨[[("id", "fact_0000"), ("text", "doc text")]], [[[1, 0]]],
   [("fact_0000", "n1")]⟩

/-- The score entry ColBERT produces for the document of `stOneDoc` at raw
score 2. -/
def entryOne : ScoreEntry := ⟨0, 2, "fact_0000", "doc text", "fact"⟩

/-- An environment whose graph lookup always returns `ctxOne`, used to
evaluate enhancement on concrete inputs. -/
def envCtx : RetrieveEnv :=
  ⟨.ok "SPECIFIC", .ok [[1, 0]], fun _ _ => .error "cos down",
   fun _ => .ok (some ctxOne)⟩

/-- A fact whose `who` and `where` values are "unknown" up to case, used to
evaluate entity skipping on concrete inputs. -/
def factUnknown : Fact := ⟨"Unknown", "acted", "sometime", "UNKNOWN"⟩

/-- A fact naming both a person and a location, used to evaluate entity and
co-occurrence creation on concrete inputs. -/
def factAlice : Fact := ⟨"Alice Smith", "met a contact", "monday", "Tel Aviv"⟩

/-- A fact naming only a person, used to evaluate repeat-mention counting
on concrete inputs. -/
def factAliceNoLoc : Fact := ⟨"Alice Smith", "called", "tuesday", "unknown"⟩

/-- A graph already holding the person entity of `factAliceNoLoc` with three
mentions. -/
def gAlice : GraphState :=
  ⟨[⟨entityId "Person" "Alice Smith", "Alice Smith", "Person", 3⟩], [], []⟩

/-- Two indexed fact documents whose ColBERT order (the second scores
higher) reverses storage order, used to evaluate the enrichment-failure
path of `retrieve` on concrete inputs. -/
def stTwoDocs : RetrievalState :=
  ⟨[[("id", "fact_0000"), ("text", "t0")], [("id", "fact_0001"), ("text", "t1")]],
   [[[1]], [[2]]],
   [("fact_0000", "n0"), ("fact_0001", "n1")]⟩

/-- An environment where classification and query encoding succeed but
every graph lookup raises, so vector search completes and only the
context-enrichment step fails. -/
def envEnrichFail : RetrieveEnv :=
  ⟨.ok "SPECIFIC", .ok [[1]], fun _ _ => .error "cos down",
   fun _ => .error "neo4j down"⟩

/-!  Theorems.  -/

/-- The index lists recorded by `chunkLoop`, flattened, are exactly the
still-unprocessed positions `i, i+1, ..., l.length - 1` appended to
whatever the accumulator already holds. -/
theorem chunkLoop_snd_flatten {α : Type} (g : List α → String) (size : Nat)
    (hs : 0 < size) (l : List α) (i : Nat) (outs : List String)
    (m : List (Nat × List Nat)) :
    (((chunkLoop g size l i outs m).2).map Prod.snd).flatten
      = ((m.map Prod.snd).flatten) ++ List.range' i (l.length - i) := by
  rw [chunkLoop]
  by_cases hi : i < l.length
  · rw [dif_pos ⟨hs, hi⟩, chunkLoop_snd_flatten g size hs l (i + size)]
    rw [List.map_append, List.flatten_append, List.append_assoc]
    congr 1
    simp only [List.map_cons, List.map_nil, List.flatten_cons, List.flatten_nil,
      List.append_nil]
    by_cases hcase : i + size ≤ l.length
    · have h1 : min (i + size) l.length - i = size := by omega
      have h2 : l.length - i = (l.length - (i + size)) + size := by omega
      rw [h1, h2]
      have h3 := List.range'_append i size (l.length - (i + size)) 1
      simpa using h3
    · have h1 : min (i + size) l.length - i = l.length - i := by omega
      have h2 : l.length - (i + size) = 0 := by omega
      rw [h1, h2]
      simp
  · rw [dif_neg (by omega)]
    have h0 : l.length - i = 0 := by omega
    simp [h0]
termination_by l.length - i
decreasing_by omega

/-- Number of chunks produced by `chunkLoop` at chunk size 10:
`⌈(l.length - i) / 10⌉` new entries. -/
theorem chunkLoop_fst_length_ten {α : Type} (g : List α → String) (l : List α)
    (i : Nat) (outs : List String) (m : List (Nat × List Nat)) :
    ((chunkLoop g 10 l i outs m).1).length
      = outs.length + (l.length - i + 9) / 10 := by
  rw [chunkLoop]
  by_cases hi : i < l.length
  · rw [dif_pos ⟨by omega, hi⟩, chunkLoop_fst_length_ten g l (i + 10)]
    simp only [List.length_append, List.length_cons, List.length_nil]
    omega
  · rw [dif_neg (by omega)]
    have h0 : l.length - i = 0 := by omega
    simp [h0]
termination_by l.length - i
decreasing_by omega

/-- On a fact list that fits into a single chunk, `_create_leaf_abstracts`
produces exactly one leaf covering every fact index. -/
theorem create_leaf_abstracts_small {F : Type} (O : DigestOracle F)
    (facts : List F) (h1 : 1 ≤ facts.length) (h10 : facts.length ≤ 10) :
    create_leaf_abstracts O facts
      = ([leaf_chunk_abstract O facts], [(0, List.range' 0 facts.length)]) := by
  rw [create_leaf_abstracts]
  rw [show LEAF_SIZE = 10 from rfl]
  rw [chunkLoop, dif_pos ⟨by omega, by omega⟩]
  rw [chunkLoop, dif_neg (by omega)]
  have hmin : min (0 + 10) facts.length - 0 = facts.length := by omega
  simp [hmin, List.take_of_length_le h10]

/-- On a non-empty fact list the tree's leafs are the output of
`_create_leaf_abstracts`. -/
theorem digest_facts_leafs {F : Type} (O : DigestOracle F) (facts : List F)
    (h : facts ≠ []) :
    (digest_facts O facts).leafs = (create_leaf_abstracts O facts).1 := by
  rw [digest_facts, if_neg (by simp [h])]
  dsimp only
  split <;> split <;> rfl

/-- On a non-empty fact list the tree's leaf-to-fact mapping is the one
built by `_create_leaf_abstracts`. -/
theorem digest_facts_leaf_fact_mapping {F : Type} (O : DigestOracle F)
    (facts : List F) (h : facts ≠ []) :
    (digest_facts O facts).leaf_fact_mapping = (create_leaf_abstracts O facts).2 := by
  rw [digest_facts, if_neg (by simp [h])]
  dsimp only
  split <;> split <;> rfl

/-- With at most one leaf abstract the early return of `digest_facts` leaves
the branch mapping empty. -/
theorem digest_facts_branch_mapping_small {F : Type} (O : DigestOracle F)
    (facts : List F) (h : facts ≠ [])
    (hl : (create_leaf_abstracts O facts).1.length ≤ 1) :
    (digest_facts O facts).branch_leaf_mapping = [] := by
  rw [digest_facts, if_neg (by simp [h])]
  rw [if_pos hl]

/-- With at least two leaf abstracts the tree's branch mapping is the one
built by `_create_branch_summaries`. -/
theorem digest_facts_branch_mapping_large {F : Type} (O : DigestOracle F)
    (facts : List F) (h : facts ≠ [])
    (hl : 1 < (create_leaf_abstracts O facts).1.length) :
    (digest_facts O facts).branch_leaf_mapping
      = (create_branch_summaries O (create_leaf_abstracts O facts).1).2 := by
  rw [digest_facts, if_neg (by simp [h])]
  dsimp only
  rw [if_neg (by omega)]
  split <;> rfl

/-- Each index below `n` occurs exactly once in `range' 0 n`. -/
theorem count_range'_eq_one {n j : Nat} (hj : j < n) :
    (List.range' 0 n).count j = 1 := by
  refine List.count_eq_one_of_mem (List.nodup_range' 0 n) ?_
  rw [List.mem_range'_1]
  omega

/-- When exactly one leaf abstract is produced, `digest_facts` promotes it
to root and leaves branches empty. -/
theorem digest_facts_single_leaf_root {F : Type} (O : DigestOracle F)
    (facts : List F) (h : facts ≠ []) (a : String)
    (ha : (create_leaf_abstracts O facts).1 = [a]) :
    (digest_facts O facts).root = a ∧ (digest_facts O facts).branches = [] := by
  rw [digest_facts, if_neg (by simp [h])]
  dsimp only
  rw [if_pos (by rw [ha]; simp)]
  constructor
  · dsimp only
    rw [ha]
  · rfl

/-- C2 counterexample: on the one-fact list `[0]` the tree has one leaf
(index 0 exists) but an empty `branch_leaf_mapping`, so leaf index 0 appears
in no branch entry rather than in exactly one. -/
theorem digest_partition_counterexample :
    (digest_facts trivDigestOracle [0]).leafs.length = 1 ∧
    mappingCount (digest_facts trivDigestOracle [0]).branch_leaf_mapping 0 = 0 := by
  have h : ([0] : List Nat) ≠ [] := by simp
  have hsmall := create_leaf_abstracts_small trivDigestOracle [0] (by simp) (by simp)
  constructor
  · rw [digest_facts_leafs _ _ h, hsmall]
    rfl
  · rw [digest_facts_branch_mapping_small _ _ h (by rw [hsmall]; simp)]
    rfl

/-- C2 (amended): for every non-empty fact list each fact index appears in
exactly one leaf entry of `leaf_fact_mapping`; each leaf index appears in
exactly one branch entry of `branch_leaf_mapping` whenever the tree has more
than one leaf (more than `LEAF_SIZE` facts), while with at most one leaf the
branch mapping is empty. -/
theorem digest_partition_invariant_amended {F : Type} (O : DigestOracle F)
    (facts : List F) (h : facts ≠ []) :
    (∀ j < facts.length,
        mappingCount (digest_facts O facts).leaf_fact_mapping j = 1) ∧
    (10 < facts.length →
        ∀ j < (digest_facts O facts).leafs.length,
          mappingCount (digest_facts O facts).branch_leaf_mapping j = 1) ∧
    (facts.length ≤ 10 → (digest_facts O facts).branch_leaf_mapping = []) := by
  have hlen : (create_leaf_abstracts O facts).1.length = (facts.length + 9) / 10 := by
    rw [create_leaf_abstracts, show LEAF_SIZE = 10 from rfl, chunkLoop_fst_length_ten]
    simp
  have hpos : 0 < facts.length := List.length_pos.mpr h
  refine ⟨?_, ?_, ?_⟩
  · intro j hj
    rw [digest_facts_leaf_fact_mapping _ _ h, mappingCount, create_leaf_abstracts,
      show LEAF_SIZE = 10 from rfl, chunkLoop_snd_flatten _ _ (by omega)]
    simpa using count_range'_eq_one hj
  · intro h10 j hj
    have hl2 : 1 < (create_leaf_abstracts O facts).1.length := by omega
    rw [digest_facts_leafs _ _ h] at hj
    rw [digest_facts_branch_mapping_large _ _ h hl2, mappingCount,
      create_branch_summaries, show BRANCH_SIZE = 10 from rfl,
      chunkLoop_snd_flatten _ _ (by omega)]
    simpa using count_range'_eq_one hj
  · intro h10
    exact digest_facts_branch_mapping_small _ _ h (by omega)

/-- Witness for the amended partition invariant at the 11-fact list
`List.range 11` (two leaves, one branch). -/
theorem digest_partition_invariant_amended_witness :
    (List.range 11 ≠ []) ∧
    ((∀ j < (List.range 11).length,
        mappingCount (digest_facts trivDigestOracle (List.range 11)).leaf_fact_mapping j = 1) ∧
     (10 < (List.range 11).length →
        ∀ j < (digest_facts trivDigestOracle (List.range 11)).leafs.length,
          mappingCount (digest_facts trivDigestOracle (List.range 11)).branch_leaf_mapping j = 1) ∧
     ((List.range 11).length ≤ 10 →
        (digest_facts trivDigestOracle (List.range 11)).branch_leaf_mapping = [])) :=
  ⟨by simp, digest_partition_invariant_amended trivDigestOracle (List.range 11) (by simp)⟩

/-- C3: `digest_facts` on the empty fact list returns the all-empty tree
with the sentinel root text, and on any fact list yielding exactly one leaf
(1 to LEAF_SIZE = 10 facts) returns zero branches, an empty branch mapping,
and a root equal to the single leaf's abstract text. -/
theorem digest_empty_and_single_leaf {F : Type} (O : DigestOracle F)
    (facts : List F) (h1 : 1 ≤ facts.length) (h10 : facts.length ≤ 10) :
    digest_facts O ([] : List F)
        = ⟨[], [], [], "No facts available for digestion.", [], []⟩ ∧
    (digest_facts O facts).leafs = [leaf_chunk_abstract O facts] ∧
    (digest_facts O facts).branches = [] ∧
    (digest_facts O facts).root = leaf_chunk_abstract O facts ∧
    (digest_facts O facts).branch_leaf_mapping = [] := by
  have h : facts ≠ [] := by
    intro hh
    rw [hh] at h1
    simp at h1
  have hsmall := create_leaf_abstracts_small O facts h1 h10
  have hroot := digest_facts_single_leaf_root O facts h _
    (by rw [hsmall])
  refine ⟨by rw [digest_facts]; rfl, ?_, hroot.2, hroot.1, ?_⟩
  · rw [digest_facts_leafs _ _ h, hsmall]
  · exact digest_facts_branch_mapping_small _ _ h (by rw [hsmall]; simp)

/-- Witness for the empty/single-leaf shape of `digest_facts` at the
three-fact list `[0, 1, 2]`. -/
theorem digest_empty_and_single_leaf_witness :
    (1 ≤ ([0, 1, 2] : List Nat).length) ∧ (([0, 1, 2] : List Nat).length ≤ 10) ∧
    (digest_facts trivDigestOracle ([] : List Nat)
        = ⟨[], [], [], "No facts available for digestion.", [], []⟩ ∧
     (digest_facts trivDigestOracle [0, 1, 2]).leafs
        = [leaf_chunk_abstract trivDigestOracle [0, 1, 2]] ∧
     (digest_facts trivDigestOracle [0, 1, 2]).branches = [] ∧
     (digest_facts trivDigestOracle [0, 1, 2]).root
        = leaf_chunk_abstract trivDigestOracle [0, 1, 2] ∧
     (digest_facts trivDigestOracle [0, 1, 2]).branch_leaf_mapping = []) :=
  ⟨by simp, by simp,
    digest_empty_and_single_leaf trivDigestOracle [0, 1, 2] (by simp) (by simp)⟩

/-- C4: for a leaf chunk of 8 or 9 facts, SliSum generates exactly one
window (start offset 0, hence facts 0 through 6 only) and returns that
window's abstract directly, with no consensus call and with the facts at
chunk indices 7 and beyond absent from the summarizer input. -/
theorem slisum_single_window_eight_nine {F : Type} (O : DigestOracle F)
    (facts : List F) (h : facts.length = 8 ∨ facts.length = 9) :
    slisum_windows facts.length = [0] ∧
    slisum_leaf_abstract O facts = O.simple_leaf_abstract (facts.take 7) := by
  have h5 : ¬ facts.length < 5 := by rcases h with h | h <;> omega
  have h7 : min 7 facts.length = 7 := by rcases h with h | h <;> omega
  have hw : slisum_windows facts.length = [0] := by
    rcases h with h | h <;> rw [h] <;> simp [slisum_windows, pyRange]
  refine ⟨hw, ?_⟩
  rw [slisum_leaf_abstract, if_neg h5]
  simp [hw, h7]

/-- Witness for the single-window SliSum behaviour at the 8-fact chunk
`List.range 8`. -/
theorem slisum_single_window_eight_nine_witness :
    ((List.range 8).length = 8 ∨ (List.range 8).length = 9) ∧
    (slisum_windows (List.range 8).length = [0] ∧
     slisum_leaf_abstract trivDigestOracle (List.range 8)
       = trivDigestOracle.simple_leaf_abstract ((List.range 8).take 7)) :=
  ⟨by simp,
    slisum_single_window_eight_nine trivDigestOracle (List.range 8) (by simp)⟩

/-- C5: for a leaf chunk of exactly 10 facts, SliSum uses window size 7 and
stride 3, producing exactly the two overlapping windows `facts[0:7]` and
`facts[3:10]`, and reconciles their two sub-abstracts with one consensus
summarizer call. -/
theorem slisum_two_windows_ten {F : Type} (O : DigestOracle F)
    (facts : List F) (h : facts.length = 10) :
    slisum_windows facts.length = [0, 3] ∧
    slisum_leaf_abstract O facts
      = O.slisum_consensus [O.simple_leaf_abstract (facts.take 7),
          O.simple_leaf_abstract ((facts.drop 3).take 7)] := by
  have hw : slisum_windows facts.length = [0, 3] := by
    rw [h]
    simp [slisum_windows, pyRange]
  refine ⟨hw, ?_⟩
  rw [slisum_leaf_abstract, if_neg (by omega)]
  have h7 : min 7 facts.length = 7 := by omega
  simp [hw, h7]

/-- Witness for the two-window SliSum behaviour at the 10-fact chunk
`List.range 10`. -/
theorem slisum_two_windows_ten_witness :
    ((List.range 10).length = 10) ∧
    (slisum_windows (List.range 10).length = [0, 3] ∧
     slisum_leaf_abstract trivDigestOracle (List.range 10)
       = trivDigestOracle.slisum_consensus
           [trivDigestOracle.simple_leaf_abstract ((List.range 10).take 7),
            trivDigestOracle.simple_leaf_abstract (((List.range 10).drop 3).take 7)]) :=
  ⟨by simp, slisum_two_windows_ten trivDigestOracle (List.range 10) (by simp)⟩

/-- C6: for a leaf chunk of fewer than 5 facts the produced abstract equals
`simple_leaf_abstract` of the whole chunk: `_slisum_leaf_abstract` is the
identity routing for sizes below 5, so the dispatch of sizes 3-4 into
SliSum in `_create_leaf_abstracts` is equivalent to direct summarization,
and the sliding-window path runs only for chunks of at least 5 facts. -/
theorem small_chunk_direct_summarization {F : Type} (O : DigestOracle F)
    (chunk : List F) (h : chunk.length < 5) :
    slisum_leaf_abstract O chunk = O.simple_leaf_abstract chunk ∧
    leaf_chunk_abstract O chunk = O.simple_leaf_abstract chunk := by
  have h1 : slisum_leaf_abstract O chunk = O.simple_leaf_abstract chunk := by
    rw [slisum_leaf_abstract, if_pos h]
  refine ⟨h1, ?_⟩
  rw [leaf_chunk_abstract]
  split
  · exact h1
  · rfl

/-- Witness for the direct-summarization routing at the 4-fact chunk
`[0, 1, 2, 3]` (which is routed through `_slisum_leaf_abstract`). -/
theorem small_chunk_direct_summarization_witness :
    (([0, 1, 2, 3] : List Nat).length < 5) ∧
    (slisum_leaf_abstract trivDigestOracle [0, 1, 2, 3]
       = trivDigestOracle.simple_leaf_abstract [0, 1, 2, 3] ∧
     leaf_chunk_abstract trivDigestOracle [0, 1, 2, 3]
       = trivDigestOracle.simple_leaf_abstract [0, 1, 2, 3]) :=
  ⟨by simp,
    small_chunk_direct_summarization trivDigestOracle [0, 1, 2, 3] (by simp)⟩

/-- A non-empty list of rationals contains its `max?.getD 0` and is bounded
by it. -/
theorem rat_max?_spec (l : List ℚ) (h : l ≠ []) :
    (l.max?.getD 0) ∈ l ∧ ∀ x ∈ l, x ≤ l.max?.getD 0 := by
  cases hm : l.max? with
  | none =>
    rw [List.max?_eq_none_iff] at hm
    exact absurd hm h
  | some a =>
    haveI : Std.Antisymm (fun (x1 x2 : ℚ) => x1 ≤ x2) :=
      ⟨fun h1 h2 => le_antisymm h1 h2⟩
    have hs := (List.max?_eq_some_iff (fun a => le_refl a)
      (fun a b => max_choice a b) (fun a b c => max_le_iff)).mp hm
    simpa using hs

/-- C9: `_safe_colbert_similarity` is total (never raises); when the torch
late-interaction computation succeeds (document has token vectors and the
shapes agree) it returns the sum, over the query token vectors, of the
maximum dot product of that token against all document token vectors — a
maximum in the genuine sense: attained on some document token and bounding
every document token's dot product; and when the computation fails it
returns the oracle cosine similarity of the two flattened vectors, or 0 if
that raises too. -/
theorem safe_colbert_similarity_spec (cosine : List ℚ → List ℚ → Except String ℚ)
    (q d : Emb) :
    (d ≠ [] → (∀ u ∈ q, ∀ v ∈ d, u.length = v.length) →
      (safe_colbert_similarity cosine q d
         = (q.map (fun u => ((d.map (fun v => dotProduct u v)).max?).getD 0)).sum ∧
       ∀ u ∈ q,
         ((d.map (fun v => dotProduct u v)).max?).getD 0
             ∈ d.map (fun v => dotProduct u v) ∧
           ∀ v ∈ d, dotProduct u v
             ≤ ((d.map (fun v => dotProduct u v)).max?).getD 0)) ∧
    (∀ e, colbertSimilarityBody q d = .error e →
      (∀ c, cosine q.flatten d.flatten = .ok c →
         safe_colbert_similarity cosine q d = c) ∧
      (∀ e2, cosine q.flatten d.flatten = .error e2 →
         safe_colbert_similarity cosine q d = 0)) := by
  constructor
  · intro hd hshape
    have hall : q.all (fun u => d.all (fun v => decide (u.length = v.length))) := by
      simp only [List.all_eq_true, decide_eq_true_eq]
      exact hshape
    have hbody : colbertSimilarityBody q d
        = .ok ((q.map (fun u => ((d.map (fun v => dotProduct u v)).max?).getD 0)).sum) := by
      rw [colbertSimilarityBody, if_neg (by simp [hd]), if_pos hall]
      dsimp only
      rw [List.map_map]
      rfl
    refine ⟨by rw [safe_colbert_similarity, hbody], ?_⟩
    intro u hu
    have hne : d.map (fun v => dotProduct u v) ≠ [] := by
      simp [hd]
    refine ⟨(rat_max?_spec _ hne).1, ?_⟩
    intro v hv
    exact (rat_max?_spec _ hne).2 _ (List.mem_map_of_mem _ hv)
  · intro e hbody
    constructor
    · intro c hc
      rw [safe_colbert_similarity, hbody, hc]
    · intro e2 hc
      rw [safe_colbert_similarity, hbody, hc]

/-- Witness for `_safe_colbert_similarity` at two concrete pairs: a
well-shaped pair (2 query tokens, 2 document tokens, dimension 2) scored by
late interaction, and a shape-mismatched pair with a failing cosine oracle,
scored 0. -/
theorem safe_colbert_similarity_spec_witness :
    ((([[1, 0], [0, 2]] : Emb) ≠ [] →
      (∀ u ∈ ([[(3 : ℚ), 1], [2, 5]] : Emb), ∀ v ∈ ([[1, 0], [0, 2]] : Emb),
        u.length = v.length) →
      (safe_colbert_similarity (fun _ _ => .error "cos") [[3, 1], [2, 5]] [[1, 0], [0, 2]]
         = (([[(3 : ℚ), 1], [2, 5]] : Emb).map (fun u =>
             ((([[1, 0], [0, 2]] : Emb).map (fun v => dotProduct u v)).max?).getD 0)).sum ∧
       ∀ u ∈ ([[(3 : ℚ), 1], [2, 5]] : Emb),
         ((([[1, 0], [0, 2]] : Emb).map (fun v => dotProduct u v)).max?).getD 0
             ∈ ([[1, 0], [0, 2]] : Emb).map (fun v => dotProduct u v) ∧
           ∀ v ∈ ([[1, 0], [0, 2]] : Emb), dotProduct u v
             ≤ ((([[1, 0], [0, 2]] : Emb).map (fun v => dotProduct u v)).max?).getD 0)) ∧
    (∀ e, colbertSimilarityBody [[3, 1], [2, 5]] [[1, 0], [0, 2]] = .error e →
      (∀ c, (fun (_ _ : List ℚ) => (.error "cos" : Except String ℚ))
          ([[(3 : ℚ), 1], [2, 5]] : Emb).flatten ([[1, 0], [0, 2]] : Emb).flatten = .ok c →
         safe_colbert_similarity (fun _ _ => .error "cos") [[3, 1], [2, 5]] [[1, 0], [0, 2]] = c) ∧
      (∀ e2, (fun (_ _ : List ℚ) => (.error "cos" : Except String ℚ))
          ([[(3 : ℚ), 1], [2, 5]] : Emb).flatten ([[1, 0], [0, 2]] : Emb).flatten = .error e2 →
         safe_colbert_similarity (fun _ _ => .error "cos") [[3, 1], [2, 5]] [[1, 0], [0, 2]] = 0))) ∧
    (∀ e, colbertSimilarityBody ([[1, 2]] : Emb) ([] : Emb) = .error e →
      (∀ c, (fun (_ _ : List ℚ) => (.error "cos" : Except String ℚ))
          ([[(1 : ℚ), 2]] : Emb).flatten ([] : Emb).flatten = .ok c →
         safe_colbert_similarity (fun _ _ => .error "cos") [[1, 2]] [] = c) ∧
      (∀ e2, (fun (_ _ : List ℚ) => (.error "cos" : Except String ℚ))
          ([[(1 : ℚ), 2]] : Emb).flatten ([] : Emb).flatten = .error e2 →
         safe_colbert_similarity (fun _ _ => .error "cos") [[1, 2]] [] = 0)) :=
  ⟨safe_colbert_similarity_spec (fun _ _ => .error "cos") [[3, 1], [2, 5]] [[1, 0], [0, 2]],
   (safe_colbert_similarity_spec (fun _ _ => .error "cos") [[1, 2]] []).2⟩

/-- `_hierarchical_enhance_results` returns at most `k` texts. -/
theorem hierarchical_enhance_results_length_le (st : RetrievalState)
    (env : RetrieveEnv) (query : String) (res : List ScoreEntry) (k : Nat) :
    (hierarchical_enhance_results st env query res k).length ≤ k := by
  rw [hierarchical_enhance_results]
  split
  · simp
  · split
    · simp only [List.length_map, List.length_take]
      exact Nat.min_le_left _ _
    · simp only [List.length_map, List.length_take]
      exact Nat.min_le_left _ _

/-- A successful `_query_levels` returns at most `k` texts. -/
theorem query_levels_ok_length (st : RetrievalState) (env : RetrieveEnv)
    (query : String) (levels : List String) (k : Nat) (r : List String)
    (h : query_levels st env query levels k = .ok r) : r.length ≤ k := by
  rw [query_levels] at h
  split at h
  · simp at h
  · rw [Except.ok.injEq] at h
    subst h
    exact hierarchical_enhance_results_length_le _ _ _ _ _

/-- A successful `_query_all_levels` returns at most `k` texts. -/
theorem query_all_levels_ok_length (st : RetrievalState) (env : RetrieveEnv)
    (query : String) (k : Nat) (r : List String)
    (h : query_all_levels st env query k = .ok r) : r.length ≤ k := by
  rw [query_all_levels] at h
  split at h
  · simp at h
  · rw [Except.ok.injEq] at h
    subst h
    exact hierarchical_enhance_results_length_le _ _ _ _ _

/-- A successful main retrieval path returns at most `k` texts. -/
theorem retrieveMain_ok_length (st : RetrievalState) (env : RetrieveEnv)
    (q : String) (k : Nat) (r : List String)
    (h : retrieveMain st env q k = .ok r) : r.length ≤ k := by
  rw [retrieveMain] at h
  split at h
  · simp at h
  · split at h
    · exact query_levels_ok_length _ _ _ _ _ _ h
    · exact query_levels_ok_length _ _ _ _ _ _ h
    · exact query_levels_ok_length _ _ _ _ _ _ h
    · exact query_all_levels_ok_length _ _ _ _ _ h

/-- A successful fallback comprehension yields one text per document
considered. -/
theorem retrieveFallback_go_ok_length (l : List PyDict) (r : List String)
    (h : retrieveFallback.go l = .ok r) : r.length = l.length := by
  induction l generalizing r with
  | nil =>
    simp only [retrieveFallback.go, Except.ok.injEq] at h
    subst h
    rfl
  | cons d rest ih =>
    simp only [retrieveFallback.go] at h
    split at h
    · simp at h
    · split at h
      · simp at h
      · rw [Except.ok.injEq] at h
        subst h
        rename_i l1 hl1
        simp [ih l1 hl1]

/-- When every document considered carries its "text" key, the fallback
comprehension succeeds and returns exactly the texts in storage order. -/
theorem retrieveFallback_go_all_some (l : List PyDict)
    (h : ∀ d ∈ l, (dictGet? d "text").isSome) :
    retrieveFallback.go l = .ok (l.map (fun d => (dictGet? d "text").getD "")) := by
  induction l with
  | nil => rfl
  | cons d rest ih =>
    obtain ⟨t, ht⟩ := Option.isSome_iff_exists.mp (h d (by simp))
    have ihr := ih (fun d hd => h d (List.mem_cons_of_mem _ hd))
    simp only [retrieveFallback.go, ht, ihr, List.map_cons]
    simp [ht]

/-- With no embeddings, level-restricted ColBERT retrieval short-circuits to
the empty candidate list. -/
theorem colbert_retrieve_by_levels_empty (st : RetrievalState) (env : RetrieveEnv)
    (levels : List String) (k : Nat) (hemb : st.document_embeddings = []) :
    colbert_retrieve_by_levels st env levels k = .ok [] := by
  rw [colbert_retrieve_by_levels, if_pos (by simp [hemb])]

/-- With no embeddings, all-level ColBERT retrieval short-circuits to the
empty candidate list. -/
theorem colbert_retrieve_empty (st : RetrievalState) (env : RetrieveEnv)
    (k : Nat) (hemb : st.document_embeddings = []) :
    colbert_retrieve st env k = .ok [] := by
  rw [colbert_retrieve, if_pos (by simp [hemb])]

/-- With no embeddings, `_query_levels` succeeds with the empty text list. -/
theorem query_levels_empty (st : RetrievalState) (env : RetrieveEnv)
    (query : String) (levels : List String) (k : Nat)
    (hemb : st.document_embeddings = []) :
    query_levels st env query levels k = .ok [] := by
  rw [query_levels, colbert_retrieve_by_levels_empty st env levels (k * 2) hemb]
  rfl

/-- With no embeddings, `_query_all_levels` succeeds with the empty text
list. -/
theorem query_all_levels_empty (st : RetrievalState) (env : RetrieveEnv)
    (query : String) (k : Nat) (hemb : st.document_embeddings = []) :
    query_all_levels st env query k = .ok [] := by
  rw [query_all_levels, colbert_retrieve_empty st env (k * 3) hemb]
  rfl

/-- `retrieve(query, k)` is a total function (it never raises) that
returns at most `k` document texts; on an empty index it returns the empty
list; and whenever the main try-body (`retrieveMain`) raises, it returns
the texts of the first `k` raw documents in storage order, or the empty
list if even that comprehension raises. -/
theorem retrieve_total_bounded_fallback (st : RetrievalState) (env : RetrieveEnv)
    (q : String) (k : Nat) :
    (retrieve st env q k).length ≤ k ∧
    (st.documents = [] → st.document_embeddings = [] → retrieve st env q k = []) ∧
    (∀ e, retrieveMain st env q k = .error e →
      ((∀ d ∈ st.documents.take k, (dictGet? d "text").isSome) →
         retrieve st env q k
           = (st.documents.take k).map (fun d => (dictGet? d "text").getD "")) ∧
      (∀ e2, retrieveFallback st k = .error e2 → retrieve st env q k = [])) := by
  refine ⟨?_, ?_, ?_⟩
  · rw [retrieve]
    split
    · rename_i r hr
      exact retrieveMain_ok_length _ _ _ _ _ hr
    · split
      · rename_i fallback_docs hfb
        rw [retrieveFallback] at hfb
        rw [retrieveFallback_go_ok_length _ _ hfb, List.length_take]
        exact Nat.min_le_left _ _
      · simp
  · intro hdoc hemb
    rw [retrieve]
    have hmain : ∀ r, retrieveMain st env q k = .ok r → r = [] := by
      intro r hr
      rw [retrieveMain] at hr
      split at hr
      · simp at hr
      · split at hr <;>
          first
          | (rw [query_levels_empty st env q _ k hemb] at hr
             exact (Except.ok.injEq _ _).mp hr.symm)
          | (rw [query_all_levels_empty st env q k hemb] at hr
             exact (Except.ok.injEq _ _).mp hr.symm)
    split
    · rename_i r hr
      exact hmain r hr
    · rw [retrieveFallback, hdoc, List.take_nil]
      rfl
  · intro e he
    constructor
    · intro hkeys
      rw [retrieve, he, retrieveFallback, retrieveFallback_go_all_some _ hkeys]
    · intro e2 he2
      rw [retrieve, he, he2]

/-- The totality/fallback statement of `retrieve_total_bounded_fallback`
instantiated at the empty index with a failing classifier. -/
theorem retrieve_total_bounded_fallback_witness :
    ((retrieve ⟨[], [], []⟩ envFail "q" 5).length ≤ 5 ∧
     ((⟨[], [], []⟩ : RetrievalState).documents = [] →
        (⟨[], [], []⟩ : RetrievalState).document_embeddings = [] →
        retrieve ⟨[], [], []⟩ envFail "q" 5 = []) ∧
     (∀ e, retrieveMain ⟨[], [], []⟩ envFail "q" 5 = .error e →
       ((∀ d ∈ (⟨[], [], []⟩ : RetrievalState).documents.take 5,
            (dictGet? d "text").isSome) →
          retrieve ⟨[], [], []⟩ envFail "q" 5
            = ((⟨[], [], []⟩ : RetrievalState).documents.take 5).map
                (fun d => (dictGet? d "text").getD "")) ∧
       (∀ e2, retrieveFallback ⟨[], [], []⟩ 5 = .error e2 →
          retrieve ⟨[], [], []⟩ envFail "q" 5 = []))) ∧
    retrieveMain ⟨[], [], []⟩ envFail "q" 5 = .error "api down" :=
  ⟨retrieve_total_bounded_fallback ⟨[], [], []⟩ envFail "q" 5, rfl⟩

/-- Every entry the level-filtered scoring loop adds has a level drawn from
the requested level set. -/
theorem scoreDocsByLevels_ok_levels (st : RetrievalState) (env : RetrieveEnv)
    (qe : Emb) (levels : List String) (pairs : List (Nat × Emb)) :
    ∀ acc l, scoreDocsByLevels st env qe levels pairs acc = .ok l →
      (∀ en ∈ acc, en.level ∈ levels) → ∀ en ∈ l, en.level ∈ levels := by
  induction pairs with
  | nil =>
    intro acc l h hacc
    simp only [scoreDocsByLevels, Except.ok.injEq] at h
    subst h
    exact hacc
  | cons p rest ih =>
    obtain ⟨i, emb⟩ := p
    intro acc l h hacc
    simp only [scoreDocsByLevels] at h
    split at h
    · simp at h
    · split at h
      · simp at h
      · rename_i doc hdoc docId hid
        split at h
        · rename_i hlvl
          split at h
          · simp at h
          · rename_i text htext
            refine ih _ _ h ?_
            intro en hen
            rcases List.mem_append.mp hen with hle | hnew
            · exact hacc en hle
            · rw [List.mem_singleton.mp hnew]
              exact hlvl
        · exact ih _ _ h hacc

/-- The stable descending sort really is descending. -/
theorem sortByScoreDesc_pairwise (l : List ScoreEntry) :
    (sortByScoreDesc l).Pairwise (fun a b => b.score ≤ a.score) := by
  have h := @List.sorted_mergeSort ScoreEntry
    (fun a b : ScoreEntry => decide (b.score ≤ a.score))
    (fun a b c hab hbc => by
      simp only [decide_eq_true_eq] at *
      exact le_trans hbc hab)
    (fun a b => by
      simp only [Bool.or_eq_true, decide_eq_true_eq]
      exact le_total b.score a.score) l
  simpa using h

/-- Membership in the stable descending sort is membership in the input. -/
theorem mem_sortByScoreDesc {en : ScoreEntry} {l : List ScoreEntry} :
    en ∈ sortByScoreDesc l ↔ en ∈ l := by
  rw [sortByScoreDesc, List.mem_mergeSort]

/-- A successful level-restricted ColBERT retrieval keeps at most `m`
candidates, all drawn from the requested levels, in descending score
order. -/
theorem colbert_retrieve_by_levels_ok_spec (st : RetrievalState)
    (env : RetrieveEnv) (levels : List String) (m : Nat) (l : List ScoreEntry)
    (h : colbert_retrieve_by_levels st env levels m = .ok l) :
    l.length ≤ m ∧ (∀ en ∈ l, en.level ∈ levels) ∧
      l.Pairwise (fun a b => b.score ≤ a.score) := by
  rw [colbert_retrieve_by_levels] at h
  by_cases hc : (st.document_embeddings.isEmpty || st.documents.isEmpty) = true
  · rw [if_pos hc, Except.ok.injEq] at h
    subst h
    simp
  · rw [if_neg hc] at h
    cases hqe : env.encodeQuery with
    | error e =>
      simp [hqe] at h
    | ok qe =>
      simp only [hqe] at h
      cases hscores : scoreDocsByLevels st env qe levels
          st.document_embeddings.enum [] with
      | error e =>
        simp [hscores] at h
      | ok scores =>
        simp only [hscores, Except.ok.injEq] at h
        subst h
        refine ⟨?_, ?_, ?_⟩
        · rw [List.length_take]
          exact Nat.min_le_left _ _
        · intro en hen
          have hmem : en ∈ scores :=
            mem_sortByScoreDesc.mp (List.take_subset _ _ hen)
          exact scoreDocsByLevels_ok_levels st env qe levels _ [] scores hscores
            (by intro en hx; simp at hx) en hmem
        · exact (sortByScoreDesc_pairwise scores).sublist (List.take_sublist _ _)

/-- A successful all-level ColBERT retrieval keeps at most `m` candidates in
descending score order. -/
theorem colbert_retrieve_ok_spec (st : RetrievalState) (env : RetrieveEnv)
    (m : Nat) (l : List ScoreEntry) (h : colbert_retrieve st env m = .ok l) :
    l.length ≤ m ∧ l.Pairwise (fun a b => b.score ≤ a.score) := by
  rw [colbert_retrieve] at h
  by_cases hc : (st.document_embeddings.isEmpty || st.documents.isEmpty) = true
  · rw [if_pos hc, Except.ok.injEq] at h
    subst h
    simp
  · rw [if_neg hc] at h
    cases hqe : env.encodeQuery with
    | error e =>
      simp [hqe] at h
    | ok qe =>
      simp only [hqe] at h
      cases hscores : scoreDocsAll st env qe st.document_embeddings.enum [] with
      | error e =>
        simp [hscores] at h
      | ok scores =>
        simp only [hscores, Except.ok.injEq] at h
        subst h
        refine ⟨?_, ?_⟩
        · rw [List.length_take]
          exact Nat.min_le_left _ _
        · exact (sortByScoreDesc_pairwise scores).sublist (List.take_sublist _ _)

/-- C7: `classify_query_level` maps the stripped, upper-cased classifier
response to the matching level and everything else to MIXED; `retrieve`
routes STRATEGIC to the {root, branch} level set, PATTERN to {branch, leaf},
SPECIFIC to {leaf, fact} and MIXED to the unrestricted search; the
level-restricted vector search keeps at most `k*2` candidates, all from the
requested levels, and the unrestricted search at most `k*3`, each in
descending score order. -/
theorem classify_and_route_spec (st : RetrievalState) (env : RetrieveEnv)
    (q : String) (k : Nat) (r : String) :
    ((classify_query_level r = .strategic ↔ pyStripUpper r = "STRATEGIC") ∧
     (classify_query_level r = .pattern ↔ pyStripUpper r = "PATTERN") ∧
     (classify_query_level r = .specific ↔ pyStripUpper r = "SPECIFIC") ∧
     (classify_query_level r = .mixed ↔
        pyStripUpper r ∉ (["STRATEGIC", "PATTERN", "SPECIFIC"] : List String))) ∧
    (env.classifyResp = .ok r →
      ((classify_query_level r = .strategic →
          retrieveMain st env q k = query_levels st env q ["root", "branch"] k) ∧
       (classify_query_level r = .pattern →
          retrieveMain st env q k = query_levels st env q ["branch", "leaf"] k) ∧
       (classify_query_level r = .specific →
          retrieveMain st env q k = query_levels st env q ["leaf", "fact"] k) ∧
       (classify_query_level r = .mixed →
          retrieveMain st env q k = query_all_levels st env q k))) ∧
    (∀ levels, query_levels st env q levels k
       = match colbert_retrieve_by_levels st env levels (k * 2) with
         | .error e => .error e
         | .ok c => .ok (hierarchical_enhance_results st env q c k)) ∧
    (query_all_levels st env q k
       = match colbert_retrieve st env (k * 3) with
         | .error e => .error e
         | .ok c => .ok (hierarchical_enhance_results st env q c k)) ∧
    (∀ levels m l, colbert_retrieve_by_levels st env levels m = .ok l →
       l.length ≤ m ∧ (∀ en ∈ l, en.level ∈ levels) ∧
         l.Pairwise (fun a b => b.score ≤ a.score)) ∧
    (∀ m l, colbert_retrieve st env m = .ok l →
       l.length ≤ m ∧ l.Pairwise (fun a b => b.score ≤ a.score)) := by
  refine ⟨?_, ?_, fun _ => rfl, rfl, ?_, ?_⟩
  · rw [classify_query_level]
    split_ifs with h1 h2 h3 <;> simp_all
  · intro hresp
    refine ⟨?_, ?_, ?_, ?_⟩ <;> intro hc <;> rw [retrieveMain, hresp] <;>
      simp only [hc]
  · intro levels m l h
    exact colbert_retrieve_by_levels_ok_spec st env levels m l h
  · intro m l h
    exact colbert_retrieve_ok_spec st env m l h

/-- Witness for classification and routing at the concrete response
`" specific "` (stripping and upper-casing select the SPECIFIC route) on a
one-document state. -/
theorem classify_and_route_spec_witness :
    (((classify_query_level " specific " = .strategic ↔
         pyStripUpper " specific " = "STRATEGIC") ∧
      (classify_query_level " specific " = .pattern ↔
         pyStripUpper " specific " = "PATTERN") ∧
      (classify_query_level " specific " = .specific ↔
         pyStripUpper " specific " = "SPECIFIC") ∧
      (classify_query_level " specific " = .mixed ↔
         pyStripUpper " specific "
           ∉ (["STRATEGIC", "PATTERN", "SPECIFIC"] : List String))) ∧
     ((envResp " specific ").classifyResp = .ok " specific " →
       ((classify_query_level " specific " = .strategic →
           retrieveMain ⟨[], [], []⟩ (envResp " specific ") "q" 4
             = query_levels ⟨[], [], []⟩ (envResp " specific ") "q" ["root", "branch"] 4) ∧
        (classify_query_level " specific " = .pattern →
           retrieveMain ⟨[], [], []⟩ (envResp " specific ") "q" 4
             = query_levels ⟨[], [], []⟩ (envResp " specific ") "q" ["branch", "leaf"] 4) ∧
        (classify_query_level " specific " = .specific →
           retrieveMain ⟨[], [], []⟩ (envResp " specific ") "q" 4
             = query_levels ⟨[], [], []⟩ (envResp " specific ") "q" ["leaf", "fact"] 4) ∧
        (classify_query_level " specific " = .mixed →
           retrieveMain ⟨[], [], []⟩ (envResp " specific ") "q" 4
             = query_all_levels ⟨[], [], []⟩ (envResp " specific ") "q" 4))) ∧
     (∀ levels, query_levels ⟨[], [], []⟩ (envResp " specific ") "q" levels 4
        = match colbert_retrieve_by_levels ⟨[], [], []⟩ (envResp " specific ")
              levels (4 * 2) with
          | .error e => .error e
          | .ok c => .ok (hierarchical_enhance_results ⟨[], [], []⟩
              (envResp " specific ") "q" c 4)) ∧
     (query_all_levels ⟨[], [], []⟩ (envResp " specific ") "q" 4
        = match colbert_retrieve ⟨[], [], []⟩ (envResp " specific ") (4 * 3) with
          | .error e => .error e
          | .ok c => .ok (hierarchical_enhance_results ⟨[], [], []⟩
              (envResp " specific ") "q" c 4)) ∧
     (∀ levels m l, colbert_retrieve_by_levels ⟨[], [], []⟩ (envResp " specific ")
          levels m = .ok l →
        l.length ≤ m ∧ (∀ en ∈ l, en.level ∈ levels) ∧
          l.Pairwise (fun a b => b.score ≤ a.score)) ∧
     (∀ m l, colbert_retrieve ⟨[], [], []⟩ (envResp " specific ") m = .ok l →
        l.length ≤ m ∧ l.Pairwise (fun a b => b.score ≤ a.score))) ∧
    (envResp " specific ").classifyResp = .ok " specific " ∧
    classify_query_level " specific " = .specific :=
  ⟨classify_and_route_spec ⟨[], [], []⟩ (envResp " specific ") "q" 4 " specific ",
   rfl, by decide⟩

/-- The stable descending sort of enhanced results really is descending. -/
theorem sortEnhancedDesc_pairwise (l : List EnhancedEntry) :
    (sortEnhancedDesc l).Pairwise (fun a b => b.score ≤ a.score) := by
  have h := @List.sorted_mergeSort EnhancedEntry
    (fun a b : EnhancedEntry => decide (b.score ≤ a.score))
    (fun a b c hab hbc => by
      simp only [decide_eq_true_eq] at *
      exact le_trans hbc hab)
    (fun a b => by
      simp only [Bool.or_eq_true, decide_eq_true_eq]
      exact le_total b.score a.score) l
  simpa using h

/-- C8: during context enhancement the final score of a candidate with a
graph-context row is its vector score times the level boost (root 1.3,
branch 1.2, leaf 1.1, fact 1.0, any other level 1.0) plus 0.1 per mentioned
entity whose lower-cased name contains some lower-cased query term; a
candidate with no stored neo4j id keeps its raw vector score; leaf- and
fact-level candidates with a non-empty parent text get a 200-character
parent excerpt prepended under a CONTEXT label; and the returned texts are
the enhanced candidates sorted by boosted score descending, truncated to
`k`. -/
theorem enhance_scoring_spec (st : RetrievalState) (env : RetrieveEnv)
    (q : String) (k : Nat) (e : ScoreEntry) (results : List ScoreEntry) :
    (levelBoost "root" = 13 / 10 ∧ levelBoost "branch" = 12 / 10 ∧
     levelBoost "leaf" = 11 / 10 ∧ levelBoost "fact" = 1 ∧
     (∀ lvl, lvl ∉ (["root", "branch", "leaf", "fact"] : List String) →
        levelBoost lvl = 1)) ∧
    (∀ nid ctx, dictGet? st.doc_id_to_neo4j_id e.doc_id = some nid →
       env.runContext nid = .ok (some ctx) →
       enhanceOne st env q e = .ok (some
         { text := match ctx.parent_context with
             | some p =>
               if p ≠ "" ∧ (ctx.level = "leaf" ∨ ctx.level = "fact") then
                 "CONTEXT: " ++ pySlice p 200 ++ "...\n\n" ++ e.text
               else e.text
             | none => e.text,
           score := e.score * levelBoost ctx.level +
             ((ctx.entities.filter
                 (fun en => entityMatchesQuery q en)).length : ℚ) * (1 / 10),
           level := ctx.level,
           entities := ctx.entities })) ∧
    (dictGet? st.doc_id_to_neo4j_id e.doc_id = none →
       enhanceOne st env q e = .ok (some ⟨e.text, e.score, e.level, []⟩)) ∧
    (∀ enhanced, results ≠ [] → enhanceLoop st env q results = .ok enhanced →
       hierarchical_enhance_results st env q results k
         = ((sortEnhancedDesc enhanced).take k).map (fun r => r.text) ∧
       (sortEnhancedDesc enhanced).Pairwise (fun a b => b.score ≤ a.score) ∧
       (hierarchical_enhance_results st env q results k).length ≤ k) := by
  refine ⟨⟨rfl, rfl, rfl, rfl, ?_⟩, ?_, ?_, ?_⟩
  · intro lvl hlvl
    simp only [List.mem_cons, List.not_mem_nil, or_false, not_or] at hlvl
    obtain ⟨h1, h2, h3, h4⟩ := hlvl
    have b1 : (lvl == "root") = false := beq_eq_false_iff_ne.mpr h1
    have b2 : (lvl == "branch") = false := beq_eq_false_iff_ne.mpr h2
    have b3 : (lvl == "leaf") = false := beq_eq_false_iff_ne.mpr h3
    have b4 : (lvl == "fact") = false := beq_eq_false_iff_ne.mpr h4
    simp [levelBoost, List.lookup, b1, b2, b3, b4]
  · intro nid ctx hnid hctx
    simp only [enhanceOne, hnid, hctx]
    rfl
  · intro hnone
    simp only [enhanceOne, hnone]
  · intro enhanced hne hloop
    have hout : hierarchical_enhance_results st env q results k
        = ((sortEnhancedDesc enhanced).take k).map (fun r => r.text) := by
      rw [hierarchical_enhance_results, if_neg (by simp [hne])]
      simp only [hloop]
    exact ⟨hout, sortEnhancedDesc_pairwise enhanced,
      hierarchical_enhance_results_length_le st env q results k⟩

/-- Witness for the enhancement scoring at the concrete one-document state
`stOneDoc`, entry `entryOne` and context row `ctxOne` (fact level, parent
present, entity "alice" matching the query "alice report"). -/
theorem enhance_scoring_spec_witness :
    dictGet? stOneDoc.doc_id_to_neo4j_id entryOne.doc_id = some "n1" ∧
    envCtx.runContext "n1" = .ok (some ctxOne) ∧
    ([entryOne] : List ScoreEntry) ≠ [] ∧
    enhanceOne stOneDoc envCtx "alice report" entryOne = .ok (some
      { text := match ctxOne.parent_context with
          | some p =>
            if p ≠ "" ∧ (ctxOne.level = "leaf" ∨ ctxOne.level = "fact") then
              "CONTEXT: " ++ pySlice p 200 ++ "...\n\n" ++ entryOne.text
            else entryOne.text
          | none => entryOne.text,
        score := entryOne.score * levelBoost ctxOne.level +
          ((ctxOne.entities.filter
              (fun en => entityMatchesQuery "alice report" en)).length : ℚ) * (1 / 10),
        level := ctxOne.level,
        entities := ctxOne.entities }) :=
  ⟨rfl, rfl, by simp,
    (enhance_scoring_spec stOneDoc envCtx "alice report" 5 entryOne
      [entryOne]).2.1 "n1" ctxOne rfl rfl⟩

/-- The MENTIONS merge leaves the entity nodes untouched. -/
theorem mergeMention_entities (g : GraphState) (a b : String) :
    (mergeMention g a b).entities = g.entities := by
  rw [mergeMention]
  split <;> rfl

/-- The MENTIONS merge leaves the CO_OCCURS edges untouched. -/
theorem mergeMention_cooccurs (g : GraphState) (a b : String) :
    (mergeMention g a b).cooccurs = g.cooccurs := by
  rw [mergeMention]
  split <;> rfl

/-- On a fact naming both a person and a location,
`_create_entities_and_relationships` merges the two entity nodes (in
who-then-where order) and one undirected CO_OCCURS edge between their ids,
leaving the rest of the graph's entity/edge structure to those merges. -/
theorem create_er_proj_both (f : Fact) (d : String) (g : GraphState)
    (hwho : pyLower f.who ≠ "unknown") (hwhere : pyLower f.whereStr ≠ "unknown") :
    (create_entities_and_relationships f d g).entities
      = entMerge (entMerge g.entities (entityId "Person" f.who) f.who "Person")
          (entityId "Location" f.whereStr) f.whereStr "Location" ∧
    (create_entities_and_relationships f d g).cooccurs
      = coMerge g.cooccurs (entityId "Person" f.who)
          (entityId "Location" f.whereStr) := by
  have hfe : factEntities f = [("Person", f.who), ("Location", f.whereStr)] := by
    rw [factEntities, if_pos hwho, if_pos hwhere]
    rfl
  rw [create_entities_and_relationships, hfe]
  simp only [List.foldl_cons, List.foldl_nil]
  rw [if_pos (by simp)]
  constructor
  · simp [orderedPairs, mergeCoOccurs, mergeEntity, mergeMention_entities]
  · simp [orderedPairs, mergeCoOccurs, mergeEntity, mergeMention_cooccurs]

/-- On a fact naming only a person, `_create_entities_and_relationships`
merges just that person entity node. -/
theorem create_er_proj_person (f : Fact) (d : String) (g : GraphState)
    (hwho : pyLower f.who ≠ "unknown") (hwhere : pyLower f.whereStr = "unknown") :
    (create_entities_and_relationships f d g).entities
      = entMerge g.entities (entityId "Person" f.who) f.who "Person" := by
  have hfe : factEntities f = [("Person", f.who)] := by
    rw [factEntities, if_pos hwho, if_neg (by simp [hwhere])]
    rfl
  rw [create_entities_and_relationships, hfe]
  simp only [List.foldl_cons, List.foldl_nil]
  rw [if_neg (by simp)]
  simp [mergeEntity, mergeMention_entities]

/-- C10: entity creation uses only the fact's `who` field (as a Person) and
`where` field (as a Location), skipping values that equal "unknown"
case-insensitively; entity identity is the lower-cased,
space-to-underscore-normalized `type_name` string; a repeat mention of an
existing entity increments its `mention_count`; and the same two entities
co-occurring in two facts yield a single undirected CO_OCCURS edge with
`co_occurrence_count` 2 rather than two edges. -/
theorem entity_graph_spec (f : Fact) (d1 d2 : String) (g : GraphState) :
    (pyLower f.who = "unknown" → pyLower f.whereStr = "unknown" →
       create_entities_and_relationships f d1 g = g) ∧
    (∀ ty name, (ty, name) ∈ factEntities f →
       (ty = "Person" ∧ name = f.who ∧ pyLower f.who ≠ "unknown") ∨
       (ty = "Location" ∧ name = f.whereStr ∧ pyLower f.whereStr ≠ "unknown")) ∧
    (∀ en : EntityNode, pyLower f.who ≠ "unknown" → pyLower f.whereStr = "unknown" →
       en ∈ g.entities → en.id = entityId "Person" f.who →
       (⟨en.id, en.name, en.type, en.mention_count + 1⟩ : EntityNode)
         ∈ (create_entities_and_relationships f d1 g).entities) ∧
    (pyLower f.who ≠ "unknown" → pyLower f.whereStr ≠ "unknown" →
       entityId "Person" f.who ≠ entityId "Location" f.whereStr →
       (create_entities_and_relationships f d2
           (create_entities_and_relationships f d1 ⟨[], [], []⟩)).cooccurs
         = [⟨entityId "Person" f.who, entityId "Location" f.whereStr, 2⟩] ∧
       (create_entities_and_relationships f d2
           (create_entities_and_relationships f d1 ⟨[], [], []⟩)).entities
         = [⟨entityId "Person" f.who, f.who, "Person", 2⟩,
            ⟨entityId "Location" f.whereStr, f.whereStr, "Location", 2⟩]) := by
  refine ⟨?_, ?_, ?_, ?_⟩
  · intro hw hh
    have hfe : factEntities f = [] := by
      rw [factEntities, if_neg (by simp [hw]), if_neg (by simp [hh])]
      rfl
    rw [create_entities_and_relationships, hfe]
    simp only [List.foldl_nil]
    rw [if_neg (by simp)]
  · intro ty name hmem
    rw [factEntities] at hmem
    rcases List.mem_append.mp hmem with h | h
    · by_cases hw : pyLower f.who ≠ "unknown"
      · rw [if_pos hw] at h
        simp at h
        exact Or.inl ⟨h.1, h.2, hw⟩
      · rw [if_neg hw] at h
        simp at h
    · by_cases hh : pyLower f.whereStr ≠ "unknown"
      · rw [if_pos hh] at h
        simp at h
        exact Or.inr ⟨h.1, h.2, hh⟩
      · rw [if_neg hh] at h
        simp at h
  · intro en hwho hwhere hen hid
    rw [create_er_proj_person f d1 g hwho hwhere]
    rw [entMerge, if_pos (List.any_eq_true.mpr ⟨en, hen, by simp [hid]⟩)]
    refine List.mem_map.mpr ⟨en, hen, ?_⟩
    rw [if_pos hid]
  · intro hwho hwhere hne
    have hne' : entityId "Location" f.whereStr ≠ entityId "Person" f.who :=
      Ne.symm hne
    have h1 := create_er_proj_both f d1 ⟨[], [], []⟩ hwho hwhere
    have h2 := create_er_proj_both f d2
      (create_entities_and_relationships f d1 ⟨[], [], []⟩) hwho hwhere
    constructor
    · rw [h2.2, h1.2]
      simp [coMerge, coConnects]
    · rw [h2.1, h1.1]
      simp [entMerge, hne, hne']

/-- Witness for entity creation at three concrete facts: an all-"unknown"
fact leaves the empty graph unchanged, a repeated person mention bumps the
stored `mention_count` from 3 to 4, and indexing the same person/location
fact twice yields one CO_OCCURS edge with count 2. -/
theorem entity_graph_spec_witness :
    (pyLower factUnknown.who = "unknown" ∧ pyLower factUnknown.whereStr = "unknown" ∧
     create_entities_and_relationships factUnknown "doc0" ⟨[], [], []⟩ = ⟨[], [], []⟩) ∧
    (pyLower factAliceNoLoc.who ≠ "unknown" ∧
     pyLower factAliceNoLoc.whereStr = "unknown" ∧
     (⟨entityId "Person" "Alice Smith", "Alice Smith", "Person", 3 + 1⟩ : EntityNode)
       ∈ (create_entities_and_relationships factAliceNoLoc "doc3" gAlice).entities) ∧
    (pyLower factAlice.who ≠ "unknown" ∧ pyLower factAlice.whereStr ≠ "unknown" ∧
     entityId "Person" factAlice.who ≠ entityId "Location" factAlice.whereStr ∧
     (create_entities_and_relationships factAlice "doc2"
         (create_entities_and_relationships factAlice "doc1" ⟨[], [], []⟩)).cooccurs
       = [⟨entityId "Person" factAlice.who, entityId "Location" factAlice.whereStr,
           2⟩]) :=
  ⟨⟨by decide, by decide,
    (entity_graph_spec factUnknown "doc0" "x" ⟨[], [], []⟩).1 (by decide) (by decide)⟩,
   ⟨by decide, by decide,
    (entity_graph_spec factAliceNoLoc "doc3" "x" gAlice).2.2.1
      ⟨entityId "Person" "Alice Smith", "Alice Smith", "Person", 3⟩
      (by decide) (by decide) (by simp [gAlice]) rfl⟩,
   ⟨by decide, by decide, by decide,
    ((entity_graph_spec factAlice "doc1" "doc2" ⟨[], [], []⟩).2.2.2
      (by decide) (by decide) (by decide)).1⟩⟩

/-- C1 counterexample: with two indexed fact documents whose ColBERT order
reverses storage order and a graph driver that raises, classification and
vector search succeed, context enrichment fails, and `retrieve` returns
the ColBERT-ranked text `["t1"]` — neither the first-1 storage-order raw
texts `["t0"]` nor the empty list.  The enrichment failure is absorbed by
`_hierarchical_enhance_results`' own try/except and never reaches
`retrieve`'s raw fallback. -/
theorem retrieve_enrichment_fallback_counterexample :
    colbert_retrieve_by_levels stTwoDocs envEnrichFail ["leaf", "fact"] (1 * 2)
      = .ok [⟨1, 2, "fact_0001", "t1", "fact"⟩,
             ⟨0, 1, "fact_0000", "t0", "fact"⟩] ∧
    enhanceLoop stTwoDocs envEnrichFail "q"
        [⟨1, 2, "fact_0001", "t1", "fact"⟩, ⟨0, 1, "fact_0000", "t0", "fact"⟩]
      = .error "neo4j down" ∧
    retrieve stTwoDocs envEnrichFail "q" 1 = ["t1"] ∧
    (stTwoDocs.documents.take 1).map (fun d => (dictGet? d "text").getD "")
      = ["t0"] ∧
    (["t1"] : List String) ≠ ["t0"] ∧
    (["t1"] : List String) ≠ ([] : List String) := by
  have hb0 : colbertSimilarityBody [[(1 : ℚ)]] [[(1 : ℚ)]] = .ok 1 := by
    norm_num [colbertSimilarityBody, dotProduct, List.max?]
  have hb1 : colbertSimilarityBody [[(1 : ℚ)]] [[(2 : ℚ)]] = .ok 2 := by
    norm_num [colbertSimilarityBody, dotProduct, List.max?]
  have hs0 : safe_colbert_similarity envEnrichFail.cosine [[1]] [[(1 : ℚ)]] = 1 := by
    rw [safe_colbert_similarity, hb0]
  have hs1 : safe_colbert_similarity envEnrichFail.cosine [[1]] [[(2 : ℚ)]] = 2 := by
    rw [safe_colbert_similarity, hb1]
  have hmid : colbert_retrieve_by_levels stTwoDocs envEnrichFail
      ["leaf", "fact"] (1 * 2)
      = .ok ((sortByScoreDesc
          [⟨0, safe_colbert_similarity envEnrichFail.cosine [[1]] [[(1 : ℚ)]],
            "fact_0000", "t0", "fact"⟩,
           ⟨1, safe_colbert_similarity envEnrichFail.cosine [[1]] [[(2 : ℚ)]],
            "fact_0001", "t1", "fact"⟩]).take (1 * 2)) := rfl
  rw [hs0, hs1] at hmid
  have hsort : sortByScoreDesc
      [⟨0, 1, "fact_0000", "t0", "fact"⟩, ⟨1, 2, "fact_0001", "t1", "fact"⟩]
      = [⟨1, 2, "fact_0001", "t1", "fact"⟩, ⟨0, 1, "fact_0000", "t0", "fact"⟩] := by
    norm_num [sortByScoreDesc, List.mergeSort]
  have hcolbert : colbert_retrieve_by_levels stTwoDocs envEnrichFail
      ["leaf", "fact"] (1 * 2)
      = .ok [⟨1, 2, "fact_0001", "t1", "fact"⟩,
             ⟨0, 1, "fact_0000", "t0", "fact"⟩] := by
    rw [hmid, hsort]
    simp
  have hloop : enhanceLoop stTwoDocs envEnrichFail "q"
      [⟨1, 2, "fact_0001", "t1", "fact"⟩, ⟨0, 1, "fact_0000", "t0", "fact"⟩]
      = .error "neo4j down" := rfl
  have henh : hierarchical_enhance_results stTwoDocs envEnrichFail "q"
      [⟨1, 2, "fact_0001", "t1", "fact"⟩, ⟨0, 1, "fact_0000", "t0", "fact"⟩] 1
      = ["t1"] := by
    rw [hierarchical_enhance_results, if_neg (by decide), hloop]
    rfl
  have hql : query_levels stTwoDocs envEnrichFail "q" ["leaf", "fact"] 1
      = .ok (hierarchical_enhance_results stTwoDocs envEnrichFail "q"
          [⟨1, 2, "fact_0001", "t1", "fact"⟩, ⟨0, 1, "fact_0000", "t0", "fact"⟩]
          1) := by
    rw [query_levels, hcolbert]
  have hdisp : retrieveMain stTwoDocs envEnrichFail "q" 1
      = query_levels stTwoDocs envEnrichFail "q" ["leaf", "fact"] 1 := rfl
  have hmain : retrieveMain stTwoDocs envEnrichFail "q" 1 = .ok ["t1"] := by
    rw [hdisp, hql, henh]
  have hret : retrieve stTwoDocs envEnrichFail "q" 1 = ["t1"] := by
    rw [retrieve, hmain]
  exact ⟨hcolbert, hloop, hret, by decide, by decide, by decide⟩

/-- C1 (amended): `retrieve(query, k)` is total (it never raises) and
returns at most `k` document texts; on an empty index it returns the empty
list; when the main try-body raises (classification, query encoding or
vector scoring fail), it falls back to the texts of the first `k` raw
documents in storage order, or to the empty list if that comprehension
raises too; a failure during graph-context enrichment, by contrast, is
absorbed inside the enhancement step, which returns the ColBERT-ranked
candidate texts truncated to `k`; and a successful main path is returned
unchanged. -/
theorem retrieve_degraded_fallback_amended (st : RetrievalState)
    (env : RetrieveEnv) (q : String) (k : Nat) :
    (retrieve st env q k).length ≤ k ∧
    (st.documents = [] → st.document_embeddings = [] → retrieve st env q k = []) ∧
    (∀ e, retrieveMain st env q k = .error e →
      ((∀ d ∈ st.documents.take k, (dictGet? d "text").isSome) →
         retrieve st env q k
           = (st.documents.take k).map (fun d => (dictGet? d "text").getD "")) ∧
      (∀ e2, retrieveFallback st k = .error e2 → retrieve st env q k = [])) ∧
    (∀ results e, results ≠ [] → enhanceLoop st env q results = .error e →
       hierarchical_enhance_results st env q results k
         = (results.take k).map (fun r => r.text)) ∧
    (∀ r, retrieveMain st env q k = .ok r → retrieve st env q k = r) := by
  refine ⟨(retrieve_total_bounded_fallback st env q k).1,
    (retrieve_total_bounded_fallback st env q k).2.1,
    (retrieve_total_bounded_fallback st env q k).2.2, ?_, ?_⟩
  · intro results e hne herr
    rw [hierarchical_enhance_results, if_neg (by simp [hne])]
    simp only [herr]
  · intro r hr
    rw [retrieve, hr]

/-- Witness for the amended degradation statement: at `stTwoDocs` with the
graph driver down, an enrichment failure on a non-empty candidate list
yields the ColBERT-ranked texts truncated to `k = 1`; and on the empty
index with a successful classifier the main path succeeds and `retrieve`
returns its result unchanged. -/
theorem retrieve_degraded_fallback_amended_witness :
    (retrieve stTwoDocs envEnrichFail "q" 1).length ≤ 1 ∧
    ([⟨1, 2, "fact_0001", "t1", "fact"⟩] : List ScoreEntry) ≠ [] ∧
    enhanceLoop stTwoDocs envEnrichFail "q"
        [⟨1, 2, "fact_0001", "t1", "fact"⟩] = .error "neo4j down" ∧
    hierarchical_enhance_results stTwoDocs envEnrichFail "q"
        [⟨1, 2, "fact_0001", "t1", "fact"⟩] 1
      = (([⟨1, 2, "fact_0001", "t1", "fact"⟩] : List ScoreEntry).take 1).map
          (fun r => r.text) ∧
    retrieveMain (⟨[], [], []⟩ : RetrievalState) (envResp "SPECIFIC") "q" 1
      = .ok [] ∧
    retrieve (⟨[], [], []⟩ : RetrievalState) (envResp "SPECIFIC") "q" 1 = [] :=
  ⟨(retrieve_degraded_fallback_amended stTwoDocs envEnrichFail "q" 1).1,
   by simp, rfl,
   (retrieve_degraded_fallback_amended stTwoDocs envEnrichFail "q" 1).2.2.2.1
     [⟨1, 2, "fact_0001", "t1", "fact"⟩] "neo4j down" (by simp) rfl,
   rfl,
   (retrieve_degraded_fallback_amended (⟨[], [], []⟩ : RetrievalState)
     (envResp "SPECIFIC") "q" 1).2.2.2.2 [] rfl⟩

end ReportCreator
